import Mathlib

/-!
Verification of the download-helper / routing core of this obspy snapshot.

The Python sources embedded here:
- `obspy/fdsn/download_helpers/download_status.py`
  (`STATUS`, `TimeInterval`, `Channel`, `Station`,
   `Station.prepare_mseed_download`, `ClientDownloadHelper.download_mseed`,
   `ClientDownloadHelper._check_downloaded_data`,
   `ClientDownloadHelper.get_availability`)
- `obspy/clients/fdsn/routing/combined_routing_client.py`
  (`CombinedRoutingClient._combine_data`)
- `obspy/core/provenance.py` (`_extract_trim`)

Time stamps and durations are rationals (`UTCDateTime` arithmetic yields
seconds).  File sizes are naturals.  Python exceptions are explicit
`Except` / error values.
-/

namespace Obspy

/-- `STATUS = Enum(["none", "needs_downloading", "downloaded", "ignore",
"exists", "download_failed", "download_rejected"])` from
`download_status.py`. -/
inductive Status where
  | none
  | needs_downloading
  | downloaded
  | ignore
  | exists_
  | download_failed
  | download_rejected
deriving DecidableEq, Repr

/-- Python exceptions that the embedded code can raise. -/
inductive PyError where
  | typeError
  | attributeError
  | fileExistsError
  | fileNotFoundError
deriving DecidableEq, Repr

/-- `TimeInterval` from `download_status.py`: slots `start`, `end`,
`filename`, `status`.  The filename slot holds either a path or the
`True` / `None` sentinel, modelled as `Option String` (`Option.none` for the
non-path values). -/
structure TimeInterval where
  start : ℚ
  end_ : ℚ
  filename : Option String := Option.none
  status : Status := Status.none
deriving DecidableEq, Repr

/-- `Channel` from `download_status.py`: slots `location`, `channel`,
`intervals`. -/
structure Channel where
  location : String
  channel : String
  intervals : List TimeInterval
deriving DecidableEq, Repr

/-- `Station` from `download_status.py` (the slots the download logic
reads). -/
structure Station where
  network : String
  station : String
  latitude : ℚ
  longitude : ℚ
  channels : List Channel
deriving DecidableEq, Repr

/-- One parsed trace as seen by the QC code: `tr.stats.starttime` and
`tr.stats.endtime`. -/
structure Trace where
  starttime : ℚ
  endtime : ℚ
deriving DecidableEq, Repr

/-- The fields of `Restrictions` that `_check_downloaded_data` reads.
`minimum_length` is `None` or a number in Python; `Option ℚ` here. -/
structure Restrictions where
  reject_channels_with_gaps : Bool
  minimum_length : Option ℚ
deriving DecidableEq, Repr

/-- Python truthiness of `restrictions.minimum_length`
(`if self.restrictions.minimum_length:`): `None` and `0` are falsy. -/
def pyTruthy : Option ℚ → Bool
  | Option.none => false
  | Option.some q => q != 0

/-- State of an interval's destination file when the QC pass inspects it:
either missing, or on disk with a byte size and the outcome of
`obspy.read(filename, headonly=True)` (`Option.none` when reading raises). -/
inductive FileState where
  | missing
  | onDisk (size : ℕ) (parsed : Option (List Trace))
deriving DecidableEq, Repr

/-- Effect of the QC pass on one interval: its new status, whether
`utils.safe_delete` ran on the file, and the contributions to the
`downloaded_bytes` and `discarded_bytes` accumulators. -/
structure QCOutcome where
  status : Status
  deleted : Bool
  downloaded_add : ℕ
  discarded_add : ℕ
deriving DecidableEq, Repr

/-- `sum([tr.stats.endtime - tr.stats.starttime for tr in st])`. -/
def totalDuration (st : List Trace) : ℚ :=
  (st.map (fun tr => tr.endtime - tr.starttime)).sum

/-- The body of the innermost loop of
`ClientDownloadHelper._check_downloaded_data` (download_status.py lines
358-427), for one interval.  Branches, in source order:

1. `interval.status != STATUS.NEEDS_DOWNLOADING` → untouched;
2. file missing → `DOWNLOAD_FAILED`;
3. zero-byte file → delete, `DOWNLOAD_FAILED`;
4. `obspy.read` raises → delete, `discarded_bytes += size`, `DOWNLOAD_FAILED`;
5. zero traces → delete, `discarded_bytes += size`, `DOWNLOAD_FAILED`;
6. `reject_channels_with_gaps is True and len(st) > 1` → the log call
   formats `len(str)` — `len` applied to the builtin *type* `str` — which
   raises `TypeError` before any deletion or status change;
7. `if self.restrictions.minimum_length:` — the source computes
   `duration` and `expected_min_duration` and logs when
   `duration < expected_min_duration`, but the `safe_delete` /
   `discarded_bytes += size` / `DOWNLOAD_REJECTED` statements sit at the
   outer indentation level, so they run whenever `minimum_length` is
   truthy, regardless of the duration comparison;
8. otherwise `downloaded_bytes += size`, `DOWNLOADED`. -/
def check_interval (r : Restrictions) (itv : TimeInterval) (fs : FileState) :
    Except PyError QCOutcome :=
  if itv.status ≠ Status.needs_downloading then
    Except.ok ⟨itv.status, false, 0, 0⟩
  else
    match fs with
    | FileState.missing => Except.ok ⟨Status.download_failed, false, 0, 0⟩
    | FileState.onDisk size parsed =>
      if size = 0 then
        Except.ok ⟨Status.download_failed, true, 0, 0⟩
      else
        match parsed with
        | Option.none => Except.ok ⟨Status.download_failed, true, 0, size⟩
        | Option.some st =>
          if st.length = 0 then
            Except.ok ⟨Status.download_failed, true, 0, size⟩
          else if r.reject_channels_with_gaps = true ∧ st.length > 1 then
            Except.error PyError.typeError
          else if pyTruthy r.minimum_length then
            Except.ok ⟨Status.download_rejected, true, 0, size⟩
          else
            Except.ok ⟨Status.downloaded, false, size, 0⟩

/-- Result of running the QC loop over a list of intervals.  When a step
raises, the earlier intervals keep their already-mutated statuses, the
remaining intervals are untouched, and the exception is recorded. -/
structure QCPass where
  intervals : List TimeInterval
  downloaded_bytes : ℕ
  discarded_bytes : ℕ
  error : Option PyError
deriving DecidableEq, Repr

/-- The QC loop of `_check_downloaded_data` over a list of intervals paired
with the state of their destination files, threading the two byte
accumulators and stopping at the first raised exception. -/
def run_qc (r : Restrictions) : List (TimeInterval × FileState) → QCPass
  | [] => ⟨[], 0, 0, Option.none⟩
  | (itv, fs) :: rest =>
    match check_interval r itv fs with
    | Except.error e => ⟨itv :: rest.map Prod.fst, 0, 0, Option.some e⟩
    | Except.ok out =>
      let tail := run_qc r rest
      ⟨{ itv with status := out.status } :: tail.intervals,
       out.downloaded_add + tail.downloaded_bytes,
       out.discarded_add + tail.discarded_bytes,
       tail.error⟩

/-! ### Chunking (`ClientDownloadHelper.download_mseed`, lines 242-288) -/

/-- The `channel_sampling_rate` table from `download_mseed`.  `Option.none`
for band codes outside the table (the `KeyError` branch). -/
def channel_sampling_rate : Char → Option ℚ
  | 'F' => Option.some 5000
  | 'G' => Option.some 5000
  | 'D' => Option.some 1000
  | 'C' => Option.some 1000
  | 'E' => Option.some 250
  | 'S' => Option.some 80
  | 'H' => Option.some 250
  | 'B' => Option.some 80
  | 'M' => Option.some 10
  | 'L' => Option.some 1
  | 'V' => Option.some (1/10)
  | 'U' => Option.some (1/100)
  | 'R' => Option.some (1/1000)
  | 'P' => Option.some (1/10000)
  | 'T' => Option.some (1/100000)
  | 'Q' => Option.some (1/1000000)
  | 'A' => Option.some 5000
  | 'O' => Option.some 5000
  | _ => Option.none

/-- `band_code = cha.channel[0].upper()`, table lookup, `KeyError → sr = 1.0`. -/
def band_sr (c : Char) : ℚ :=
  (channel_sampling_rate c.toUpper).getD 1

/-- One (sampling-rate, interval) entry of the chunking walk: the source
walks stations, channels and intervals, attaching the channel's estimated
sampling rate to each interval. -/
def station_entries (stations : List Station) : List (ℚ × TimeInterval) :=
  stations.flatMap fun sta =>
    sta.channels.flatMap fun cha =>
      cha.intervals.map fun itv => (band_sr cha.channel.front, itv)

/-- `sr * duration * 4.0 / 3.0 / 1024.0 / 1024.0` megabytes for one
interval. -/
def interval_mb (sr : ℚ) (itv : TimeInterval) : ℚ :=
  sr * (itv.end_ - itv.start) * 4 / 3 / 1024 / 1024

/-- Accumulator of the chunking loop: `chunks`, `chunks_curr`,
`curr_chunks_mb`. -/
structure ChunkState where
  chunks : List (List (ℚ × TimeInterval))
  chunks_curr : List (ℚ × TimeInterval)
  curr_chunks_mb : ℚ

/-- One iteration of the chunking loop of `download_mseed`: skip intervals
not in `NEEDS_DOWNLOADING`; append the rest to the current chunk, add the
estimated size, and close the chunk when the running estimate reaches
`chunk_size_in_mb`. -/
def chunk_step (chunk_size_in_mb : ℚ) (s : ChunkState) (e : ℚ × TimeInterval) :
    ChunkState :=
  if e.2.status ≠ Status.needs_downloading then s
  else
    let curr := s.chunks_curr ++ [e]
    let mb := s.curr_chunks_mb + interval_mb e.1 e.2
    if mb ≥ chunk_size_in_mb then ⟨s.chunks ++ [curr], [], 0⟩
    else ⟨s.chunks, curr, mb⟩

/-- The whole chunking phase: fold the loop over all entries, then append
the trailing `chunks_curr` when non-empty (`if chunks_curr:
chunks.append(chunks_curr)`). -/
def make_chunks (chunk_size_in_mb : ℚ) (entries : List (ℚ × TimeInterval)) :
    List (List (ℚ × TimeInterval)) :=
  let s := entries.foldl (chunk_step chunk_size_in_mb) ⟨[], [], 0⟩
  if s.chunks_curr.isEmpty then s.chunks else s.chunks ++ [s.chunks_curr]

/-- Estimated size of a chunk: sum of its intervals' estimates. -/
def chunk_mb (c : List (ℚ × TimeInterval)) : ℚ :=
  (c.map fun e => interval_mb e.1 e.2).sum

/-! ### Return value of `download_mseed` (lines 234-344) -/

/-- What a call to `download_mseed` evaluates to.  `py_list_empty` is the
literal `return []` taken when no chunk was formed. -/
inductive DownloadReturn where
  | py_list_empty
deriving DecidableEq, Repr

/-- Control flow of `ClientDownloadHelper.download_mseed` as far as its
return value is concerned.  With no chunks it hits `return []` (line 297).
With at least one chunk it calls `_check_downloaded_data`, whose outer loop
`for sta in self.stations:` (line 356) iterates the *keys* of the
`self.stations` dict — `(network, station)` tuples — so `sta.channels`
raises `AttributeError` as soon as the dict is non-empty; and a non-empty
chunk list implies a non-empty station dict.  (Even if it survived, the
recount loop at line 334 has the same key-iteration slip, and the function
then runs the leftover `IPython` `Tracer()` debugger and falls off the end
returning `None`.)  It never returns a byte-count pair. -/
def download_mseed (chunk_size_in_mb : ℚ) (stations : List Station) :
    Except PyError DownloadReturn :=
  if (make_chunks chunk_size_in_mb (station_entries stations)).isEmpty then
    Except.ok DownloadReturn.py_list_empty
  else
    Except.error PyError.attributeError

/-! ### `CombinedRoutingClient._combine_data`
(`obspy/clients/fdsn/routing/combined_routing_client.py`, lines 65-103) -/

/-- Python dict assignment `d[k] = v` on an insertion-ordered association
list: overwrite in place if the key is present, else append. -/
def dictInsert {κ α : Type} [DecidableEq κ] (l : List (κ × α)) (k : κ) (v : α) :
    List (κ × α) :=
  if l.any (fun p => p.1 = k) then
    l.map (fun p => if p.1 = k then (k, v) else p)
  else l ++ [(k, v)]

/-- Helper for `strip_protocol`: drop everything through the first
occurrence of `"://"`, `Option.none` when there is none. -/
def dropScheme : List Char → Option (List Char)
  | [] => Option.none
  | ':' :: '/' :: '/' :: rest => Option.some rest
  | _ :: rest => dropScheme rest

/-- Modelled from the spec: `_strip_protocol` is imported from
`routing_client.py`, which is not among the given sources.  Spec §4.5 step
2: "Normalize each endpoint by removing its protocol scheme before
comparison (so scheme variants of the same host are equivalent)" — remove
the leading `scheme://` when present. -/
def strip_protocol (s : String) : String :=
  match dropScheme s.data with
  | Option.some rest => String.mk rest
  | Option.none => s

/-- What running one router in route-resolution mode yields, as observed by
`_combine_data` through the mock:
`noData` — the call raised `FDSNNoDataException` (the `continue` branch);
`noCall` — `not p.call_count or len(p.call_args[0]) < 2`;
`split` — the captured endpoint→parameters dict plus the captured keyword
arguments `p.call_args[1]`. -/
inductive ProviderResult (V K : Type) where
  | noData
  | noCall
  | split (routes : List (String × V)) (kwargs : K)

/-- Accumulator of `_combine_data`: the `routes` dict, the `data_centers`
list, and the last captured `_kwargs` (unbound before the first claim). -/
structure CombineState (V K : Type) where
  routes : List (String × V)
  data_centers : List String
  kwargs : Option K

/-- Processing of one router's result inside `_combine_data`: for each
`(key, value)` of the captured split dict, compute
`url = _strip_protocol(key)`, skip when `url in data_centers`, else
`routes[key] = value`, `data_centers.append(key)` (note: the *raw* key is
appended while the *stripped* url is tested), `_kwargs = p.call_args[1]`. -/
def process_offer {V K : Type} [DecidableEq V] [DecidableEq K]
    (s : CombineState V K) (offer : ProviderResult V K) : CombineState V K :=
  match offer with
  | ProviderResult.noData => s
  | ProviderResult.noCall => s
  | ProviderResult.split routes kwargs =>
    routes.foldl
      (fun s p =>
        let url := strip_protocol p.1
        if s.data_centers.contains url then s
        else ⟨dictInsert s.routes p.1 p.2,
              s.data_centers ++ [p.1],
              Option.some kwargs⟩)
      s

/-- Result of `_combine_data`: either the raised `FDSNNoDataException("")`
or the call `self._download_parallel(split=routes, **_kwargs)`. -/
inductive CombineResult (V K : Type) where
  | noDataException
  | download_parallel (split : List (String × V)) (kwargs : Option K)
deriving DecidableEq

/-- `CombinedRoutingClient._combine_data` over the per-router observations,
in configured router order. -/
def _combine_data {V K : Type} [DecidableEq V] [DecidableEq K]
    (providers : List (ProviderResult V K)) : CombineResult V K :=
  let s := providers.foldl process_offer ⟨[], [], Option.none⟩
  if s.routes.isEmpty then CombineResult.noDataException
  else CombineResult.download_parallel s.routes s.kwargs

/-! ### `Station.prepare_mseed_download` (download_status.py, lines 130-154) -/

/-- The filesystem as the set of existing paths (files and directories),
`os.path.exists` being list membership; `os.path.exists("")` is false, so
the empty string (the implicit root of relative paths) is simply never a
member. -/
structure FS where
  paths : List String

/-- Helper for `dirname`: `p[:p.rfind('/') + 1]`, the prefix of the path
up to and including its last slash (empty when the path has no slash). -/
def headThroughLastSlash : List Char → List Char
  | [] => []
  | c :: rest =>
    if ('/' : Char) ∈ rest then c :: headThroughLastSlash rest
    else if c = '/' then ['/'] else []

/-- `os.path.dirname` (posixpath): take the prefix up to the last slash,
then strip its trailing slashes unless it consists only of slashes; a
path without a slash has dirname `""`. -/
def dirname (s : String) : String :=
  let head := headThroughLastSlash s.data
  if head ≠ [] ∧ head.any (fun c => c ≠ '/') then
    String.mk ((head.reverse.dropWhile (fun c => c = '/')).reverse)
  else String.mk head

/-- The creation cascade of `os.makedirs(name)`: when the parent is
non-empty and missing, recursively create it first (CPython descends
before creating anything, so every existence test reads the filesystem as
it was at the start of the cascade), then create `name` itself.  The
recursion is fuelled; the path length bounds the depth of the parent
chain because `dirname` strictly shortens a slash-containing path. -/
def makedirs_create : ℕ → FS → String → FS
  | 0, fs, _ => fs
  | fuel + 1, fs, name =>
    let head := dirname name
    let fs1 :=
      if head ≠ "" ∧ head ∉ fs.paths then makedirs_create fuel fs head
      else fs
    ⟨fs1.paths ++ [name]⟩

/-- The chain of directories a call to `os.makedirs(name)` can create:
`name`, its parent, its grandparent, …, stopping at the empty root. -/
def chainAux : ℕ → String → List String
  | 0, _ => []
  | fuel + 1, s => if s = "" then [] else s :: chainAux fuel (dirname s)

/-- `chainAux` at the fuel `makedirs` itself uses. -/
def dirname_chain (s : String) : List String :=
  chainAux (s.length + 1) s

/-- `os.makedirs(name)`: `FileNotFoundError` for the empty path (its
`mkdir('')` fails), `FileExistsError` when the target itself already
exists, otherwise create the target and all its missing ancestors. -/
def makedirs (fs : FS) (name : String) : Except PyError FS :=
  if name = "" then Except.error PyError.fileNotFoundError
  else if name ∈ fs.paths then Except.error PyError.fileExistsError
  else Except.ok (makedirs_create (name.length + 1) fs name)

/-- The loop body of `prepare_mseed_download` for one interval, given the
already-applied storage resolver `rv` (`utils.get_mseed_filename` with the
stream identity fixed; `Option.none` models the `True` skip sentinel):

- sentinel → `filename := sentinel`, status `IGNORE`;
- `os.path.exists(filename)` → status `EXISTS`;
- else `os.makedirs(os.path.dirname(filename))` when that parent is
  missing, status `NEEDS_DOWNLOADING`. -/
def prepare_interval (rv : ℚ → ℚ → Option String)
    (fs : FS) (itv : TimeInterval) : Except PyError (TimeInterval × FS) :=
  match rv itv.start itv.end_ with
  | Option.none =>
    Except.ok ({ itv with filename := Option.none, status := Status.ignore }, fs)
  | Option.some f =>
    if f ∈ fs.paths then
      Except.ok ({ itv with filename := Option.some f,
                            status := Status.exists_ }, fs)
    else
      if dirname f ∈ fs.paths then
        Except.ok ({ itv with filename := Option.some f,
                              status := Status.needs_downloading }, fs)
      else
        match makedirs fs (dirname f) with
        | Except.error e => Except.error e
        | Except.ok fs1 =>
          Except.ok ({ itv with filename := Option.some f,
                                status := Status.needs_downloading }, fs1)

/-- `prepare_mseed_download`'s inner loop over one channel's intervals,
threading the filesystem. -/
def prepare_intervals (rv : ℚ → ℚ → Option String)
    (fs : FS) : List TimeInterval → Except PyError (List TimeInterval × FS)
  | [] => Except.ok ([], fs)
  | itv :: rest =>
    match prepare_interval rv fs itv with
    | Except.error e => Except.error e
    | Except.ok (itv1, fs1) =>
      match prepare_intervals rv fs1 rest with
      | Except.error e => Except.error e
      | Except.ok (rest1, fs2) => Except.ok (itv1 :: rest1, fs2)

/-- The storage resolver `mseed_storage` as seen by one station:
`utils.get_mseed_filename(mseed_storage, network, station, location,
channel, start, end)`, with `network`/`station` fixed. -/
def channel_resolver (storage : String → String → ℚ → ℚ → Option String)
    (cha : Channel) : ℚ → ℚ → Option String :=
  storage cha.location cha.channel

/-- `prepare_mseed_download`'s outer loop over a station's channels. -/
def prepare_channels
    (storage : String → String → ℚ → ℚ → Option String) (fs : FS) :
    List Channel → Except PyError (List Channel × FS)
  | [] => Except.ok ([], fs)
  | cha :: rest =>
    match prepare_intervals (channel_resolver storage cha) fs
        cha.intervals with
    | Except.error e => Except.error e
    | Except.ok (itvs1, fs1) =>
      match prepare_channels storage fs1 rest with
      | Except.error e => Except.error e
      | Except.ok (rest1, fs2) =>
        Except.ok ({ cha with intervals := itvs1 } :: rest1, fs2)

/-- `Station.prepare_mseed_download(mseed_storage)`: distribute filenames
and statuses over every interval of every channel. -/
def prepare_mseed_download
    (storage : String → String → ℚ → ℚ → Option String) (fs : FS)
    (sta : Station) : Except PyError (Station × FS) :=
  match prepare_channels storage fs sta.channels with
  | Except.error e => Except.error e
  | Except.ok (chans1, fs1) =>
    Except.ok ({ sta with channels := chans1 }, fs1)

/-- All paths the storage resolver assigns across a station (used to state
the idempotence side condition). -/
def resolvedFilenames (storage : String → String → ℚ → ℚ → Option String)
    (sta : Station) : List String :=
  sta.channels.flatMap fun cha =>
    cha.intervals.filterMap fun itv =>
      channel_resolver storage cha itv.start itv.end_

/-! ### `ClientDownloadHelper.get_availability` (download_status.py,
lines 480-623) -/

/-- A channel of the returned inventory, with the fields the availability
filter reads: `location_code`, `code`, `start_date`, `end_date`,
`data_availability` (its `start`/`end` when present). -/
structure InvChannel where
  location_code : String
  code : String
  start_date : ℚ
  end_date : ℚ
  data_availability : Option (ℚ × ℚ)
deriving DecidableEq, Repr

/-- A station of the returned inventory. -/
structure InvStation where
  code : String
  latitude : ℚ
  longitude : ℚ
  channels : List InvChannel
deriving DecidableEq, Repr

/-- A network of the returned inventory. -/
structure InvNetwork where
  code : String
  stations : List InvStation
deriving DecidableEq, Repr

/-- The fields of `Restrictions` that `get_availability` reads. -/
structure AvailRestrictions where
  starttime : ℚ
  endtime : ℚ
  channel_priorities : List String
  location_priorities : List String
deriving DecidableEq, Repr

/-- Modelled from the spec: `utils.filter_channel_priority` is not among
the given sources.  Spec §4.3 step 4: "apply a channel-code priority filter
per group (keep only the channel codes at the best-ranked priority tier
present; drop codes absent from the priority list entirely; ties within a
tier are all kept)" — keep exactly the items whose key equals the first
priority value that some item carries. -/
def filter_channel_priority (key : Channel → String) (priorities : List String)
    (channels : List Channel) : List Channel :=
  match priorities.find? (fun p => channels.any (fun c => key c = p)) with
  | Option.none => []
  | Option.some p => channels.filter (fun c => key c = p)

/-- Lines 570-590: keep a channel when its metadata epoch covers the
requested window (`start_date > starttime or end_date < endtime` skips it)
and, when `includeavailability` was sent, when its availability record is
present and also covers the window. -/
def channel_passes (r : AvailRestrictions) (include_avail : Bool)
    (c : InvChannel) : Bool :=
  !(c.start_date > r.starttime || c.end_date < r.endtime) &&
  (if include_avail then
    match c.data_availability with
    | Option.none => false
    | Option.some da => !(da.1 > r.starttime || da.2 < r.endtime)
  else true)

/-- Lines 596-610: group the surviving channels by location code (the
source sorts by location and uses `itertools.groupby`), apply the
channel-priority filter per group, then the location-priority filter across
the result. -/
def priority_filtered (r : AvailRestrictions) (channels : List Channel) :
    List Channel :=
  let locs := ((channels.map Channel.location).dedup).mergeSort
    (fun a b => decide (a ≤ b))
  let grouped := locs.flatMap fun loc =>
    filter_channel_priority Channel.channel r.channel_priorities
      (channels.filter (fun c => c.location = loc))
  filter_channel_priority Channel.location r.location_priorities grouped

/-- Lines 560-623: build the stored station map.  Stations failing the
domain predicate are skipped (when `needs_filtering`); each surviving
inventory channel passing `channel_passes` becomes a `Channel` carrying a
fresh copy of the requested intervals; the two priority filters run; a
station left with no channels is skipped; otherwise
`self.stations[(network.code, station.code)] = Station(...)`. -/
def get_availability (r : AvailRestrictions) (include_avail : Bool)
    (needs_filtering : Bool) (is_in_domain : ℚ → ℚ → Bool)
    (intervals : List TimeInterval) (inv : List InvNetwork) :
    List ((String × String) × Station) :=
  inv.foldl
    (fun acc network =>
      network.stations.foldl
        (fun acc station =>
          if needs_filtering && !is_in_domain station.latitude
              station.longitude then acc
          else
            let channels := (station.channels.filter
              (channel_passes r include_avail)).map fun c =>
                Channel.mk c.location_code c.code intervals
            let channels := priority_filtered r channels
            if channels.isEmpty then acc
            else dictInsert acc (network.code, station.code)
              (Station.mk network.code station.code station.latitude
                station.longitude channels))
        acc)
    []

/-! ### `_extract_trim` (`obspy/core/provenance.py`, lines 268-299) -/

/-- The before/after state dicts as `_extract_trim` reads them. -/
structure TrimState where
  starttime : ℚ
  endtime : ℚ
deriving DecidableEq, Repr

/-- One extracted provenance step: its activity name and the bounds it
records (`new_start_time`, `new_end_time`); the pad step additionally
records the fill value, which we do not need to distinguish steps. -/
structure TrimStep where
  name : String
  new_start_time : ℚ
  new_end_time : ℚ
deriving DecidableEq, Repr

/-- `_extract_trim`: starting from `steps = []`, append a `"cut"` step when
data was removed at either edge (bounds: the max of the start times and the
min of the end times), then append a `"pad"` step when data was added at
either edge (bounds: the after state's), and return the accumulated list —
the concatenation of the two conditional appends, cut first. -/
def _extract_trim (state_before state_after : TrimState) : List TrimStep :=
  (if state_before.starttime < state_after.starttime ∨
      state_before.endtime > state_after.endtime then
    [⟨"cut",
      max state_after.starttime state_before.starttime,
      min state_after.endtime state_before.endtime⟩]
  else []) ++
  (if state_before.starttime > state_after.starttime ∨
      state_before.endtime < state_after.endtime then
    [⟨"pad", state_after.starttime, state_after.endtime⟩]
  else [])

/-! ### Predicates used by the statements -/

/-- Invariant of the chunking loop: every closed chunk is non-empty and,
without its final interval, estimates to strictly below the threshold; the
running megabyte counter agrees with the open chunk, which is still below
the threshold and consists of entries with non-negative estimates. -/
def ChunkInv (thr : ℚ) (s : ChunkState) : Prop :=
  (∀ c ∈ s.chunks, c ≠ [] ∧ chunk_mb c.dropLast < thr) ∧
  s.curr_chunks_mb = chunk_mb s.chunks_curr ∧
  chunk_mb s.chunks_curr < thr ∧
  (∀ e ∈ s.chunks_curr, 0 ≤ interval_mb e.1 e.2)

/-- A router run that claims no route in `_combine_data`: it raised
`FDSNNoDataException`, or the mock saw no suitable call, or the captured
split dict was empty. -/
def contributes_nothing {V K : Type} (p : ProviderResult V K) : Prop :=
  p = ProviderResult.noData ∨ p = ProviderResult.noCall ∨
    ∃ kw, p = ProviderResult.split [] kw

/-- An interval is stable under `prepare_mseed_download` for filesystem
`fsA`: re-running the loop body leaves it and `fsA` unchanged. -/
def interval_stable (rv : ℚ → ℚ → Option String)
    (fsA : FS) (itv : TimeInterval) : Prop :=
  (rv itv.start itv.end_ = Option.none →
    itv.filename = Option.none ∧ itv.status = Status.ignore) ∧
  (∀ f, rv itv.start itv.end_ = Option.some f →
    itv.filename = Option.some f ∧
      ((f ∈ fsA.paths ∧ itv.status = Status.exists_) ∨
       (f ∉ fsA.paths ∧ dirname f ∈ fsA.paths ∧
        itv.status = Status.needs_downloading)))

/-- Epoch-coverage property claimed for every stored channel after
availability discovery: it descends from an inventory channel of the same
codes whose metadata epoch covers the requested window. -/
def channel_covered (r : AvailRestrictions) (inv : List InvNetwork)
    (cha : Channel) : Prop :=
  ∃ network ∈ inv, ∃ station ∈ network.stations, ∃ c ∈ station.channels,
    c.location_code = cha.location ∧ c.code = cha.channel ∧
    c.start_date ≤ r.starttime ∧ r.endtime ≤ c.end_date

/-! ### Concrete inputs used by counterexamples and witnesses -/

/-- An interval whose download fully covers the requested window: requested
`[0, 100]`, one trace spanning `[0, 100]`, 512 bytes on disk. -/
def full_coverage_interval : TimeInterval :=
  ⟨0, 100, Option.some "f.mseed", Status.needs_downloading⟩

/-- The parse result for `full_coverage_interval`: one trace over the whole
requested window. -/
def full_coverage_traces : List Trace := [⟨0, 100⟩]

/-- Restrictions with `minimum_length = 0.5` and gap rejection off. -/
def min_length_restrictions : Restrictions := ⟨false, Option.some (1/2)⟩

/-- Restrictions with gap-free mode on and no minimum length. -/
def gap_restrictions : Restrictions := ⟨true, Option.none⟩

/-- A downloaded file parsing into three disjoint traces. -/
def three_trace_parse : List Trace := [⟨0, 30⟩, ⟨40, 60⟩, ⟨70, 100⟩]

/-- Two providers offering the same endpoint under different protocol
schemes (spec §8's combiner-dedup scenario), with distinct route
parameters and keyword snapshots. -/
def scheme_variant_providers : List (ProviderResult ℕ ℕ) :=
  [ProviderResult.split [("http://X", 1)] 7,
   ProviderResult.split [("https://X", 2)] 8]

/-- One station with a single `NEEDS_DOWNLOADING` interval on an `L`-band
channel. -/
def one_interval_station : Station :=
  ⟨"XX", "YY0", 0, 0,
   [⟨"", "LHZ", [⟨0, 60, Option.some "f.mseed", Status.needs_downloading⟩]⟩]⟩

/-- Two chunking entries at 1 Hz, each estimating to exactly 20 MB
(duration `15 * 1024 * 1024` seconds). -/
def twenty_mb_entries : List (ℚ × TimeInterval) :=
  [(1, ⟨0, 15728640, Option.some "a.mseed", Status.needs_downloading⟩),
   (1, ⟨0, 15728640, Option.some "b.mseed", Status.needs_downloading⟩)]

/-- A skip-nothing storage resolver mapping every interval to the same
path, for the idempotence witness. -/
def witness_storage : String → String → ℚ → ℚ → Option String :=
  fun _ _ _ _ => Option.some "data/file.mseed"

/-- A fresh station for the idempotence witness. -/
def witness_station : Station :=
  ⟨"N", "S", 0, 0, [⟨"", "BHZ", [⟨0, 10, Option.none, Status.none⟩]⟩]⟩

/-- A resolver whose two channels resolve to `r/x` and `r/x/y/z.mseed`:
the second file's parent cascade creates the directory `r/x`, the first
file's own path. -/
def c8_storage : String → String → ℚ → ℚ → Option String :=
  fun _ cha _ _ =>
    if cha = "B1" then Option.some "r/x" else Option.some "r/x/y/z.mseed"

/-- A fresh two-channel station for the idempotence counterexample. -/
def c8_station : Station :=
  ⟨"N", "S", 0, 0,
   [⟨"", "B1", [⟨0, 1, Option.none, Status.none⟩]⟩,
    ⟨"", "B2", [⟨0, 1, Option.none, Status.none⟩]⟩]⟩

/-- `c8_station` after the first run: both intervals `NEEDS_DOWNLOADING`. -/
def c8_station_run1 : Station :=
  ⟨"N", "S", 0, 0,
   [⟨"", "B1",
     [⟨0, 1, Option.some "r/x", Status.needs_downloading⟩]⟩,
    ⟨"", "B2",
     [⟨0, 1, Option.some "r/x/y/z.mseed", Status.needs_downloading⟩]⟩]⟩

/-- `c8_station` after the second run: the first interval has flipped to
`EXISTS`, because run one's `os.makedirs("r/x/y")` created `r/x`. -/
def c8_station_run2 : Station :=
  ⟨"N", "S", 0, 0,
   [⟨"", "B1",
     [⟨0, 1, Option.some "r/x", Status.exists_⟩]⟩,
    ⟨"", "B2",
     [⟨0, 1, Option.some "r/x/y/z.mseed", Status.needs_downloading⟩]⟩]⟩

/-- The directories on disk after the first run over `c8_station`. -/
def c8_fs_run1 : FS := ⟨["r", "r/x", "r/x/y"]⟩

/-- A resolver producing a bare relative filename (empty dirname). -/
def c8_bare_storage : String → String → ℚ → ℚ → Option String :=
  fun _ _ _ _ => Option.some "file.mseed"

/-- A fresh one-channel station for the bare-filename failure. -/
def c8_bare_station : Station :=
  ⟨"N", "S", 0, 0, [⟨"", "B1", [⟨0, 1, Option.none, Status.none⟩]⟩]⟩

/-- A one-network, one-station, one-channel inventory whose channel epoch
`[-5, 20]` covers the requested window `[0, 10]`. -/
def witness_inventory : List InvNetwork :=
  [⟨"N", [⟨"S", 1, 2, [⟨"", "BHZ", -5, 20, Option.none⟩]⟩]⟩]

/-- The requested window and priorities for the availability witness. -/
def witness_avail_restrictions : AvailRestrictions :=
  ⟨0, 10, ["BHZ"], [""]⟩

/-- The requested sub-window list for the availability witness. -/
def witness_intervals : List TimeInterval :=
  [⟨0, 10, Option.none, Status.none⟩]

/-- The station `get_availability` stores for `witness_inventory`. -/
def witness_stored_station : Station :=
  ⟨"N", "S", 1, 2, [⟨"", "BHZ", witness_intervals⟩]⟩

/-- Three providers contributing no route: one raising
`FDSNNoDataException`, one resolving an empty split, one never reaching
the download step. -/
def no_route_providers : List (ProviderResult ℕ ℕ) :=
  [ProviderResult.noData, ProviderResult.split [] 0, ProviderResult.noCall]

/-! ## Theorems -/

/-- C1: refuted on the code.  An interval whose single trace covers the
whole requested window (duration 100 ≥ 0.5 × 100) is nevertheless deleted,
its size counted as discarded and its status set to `DOWNLOAD_REJECTED`,
because the `safe_delete` / `discarded_bytes` / `DOWNLOAD_REJECTED` block
of `_check_downloaded_data` is indented outside the
`duration < expected_min_duration` test and runs whenever a minimum-length
fraction is configured. -/
theorem c1_minimum_length_qc_rejects_sufficient_data :
    totalDuration full_coverage_traces ≥
      (1/2 : ℚ) *
        (full_coverage_interval.end_ - full_coverage_interval.start) ∧
    min_length_restrictions.minimum_length = Option.some (1/2) ∧
    check_interval min_length_restrictions full_coverage_interval
      (FileState.onDisk 512 (Option.some full_coverage_traces)) =
      Except.ok ⟨Status.download_rejected, true, 0, 512⟩ := by
  refine ⟨?_, rfl, ?_⟩
  · norm_num [totalDuration, full_coverage_traces, full_coverage_interval]
  · norm_num [check_interval, pyTruthy, min_length_restrictions,
      full_coverage_interval, full_coverage_traces]

/-- C2: refuted on the code.  Two providers offering the same endpoint
under different protocol schemes (`http://X`, `https://X`) both get their
route claimed: `_combine_data` tests the protocol-stripped url against
`data_centers` but appends the raw key, so the membership test never
matches and the later provider's offer is not ignored. -/
theorem c2_scheme_variants_both_survive :
    strip_protocol "http://X" = strip_protocol "https://X" ∧
    _combine_data scheme_variant_providers =
      CombineResult.download_parallel [("http://X", 1), ("https://X", 2)]
        (Option.some 8) := by
  decide

/-- C3: refuted on the code.  `download_mseed` never returns the
`(downloaded_bytes, discarded_bytes)` pair: with no chunk it executes
`return []`, and with at least one chunk `_check_downloaded_data` iterates
the keys of the station dict (`for sta in self.stations:`) and raises
`AttributeError` on `sta.channels`. -/
theorem c3_download_mseed_return_value :
    download_mseed 25 [] = Except.ok DownloadReturn.py_list_empty ∧
    download_mseed 25 [one_interval_station] =
      Except.error PyError.attributeError := by
  constructor
  · rfl
  · have hb : band_sr "LHZ".front = 1 := rfl
    norm_num [download_mseed, make_chunks, chunk_step, station_entries,
      interval_mb, hb, one_interval_station]

/-- C4: refuted on the code.  With gap-free mode on, a file parsing into
three traces makes the QC pass raise `TypeError`: the log call formats
`len(str)` — `len` of the builtin type `str` — before any deletion or
status change, so the claimed delete-and-reject never happens. -/
theorem c4_gap_rejection_raises_type_error :
    gap_restrictions.reject_channels_with_gaps = true ∧
    three_trace_parse.length = 3 ∧
    check_interval gap_restrictions full_coverage_interval
      (FileState.onDisk 512 (Option.some three_trace_parse)) =
      Except.error PyError.typeError := by
  refine ⟨rfl, rfl, ?_⟩
  norm_num [check_interval, gap_restrictions, full_coverage_interval,
    three_trace_parse]

/-- C10: confirmed.  When a trim needs both a cut and a pad, the extracted
step list is the cut step followed by the pad step, the cut bounds being
the max of the two start times and the min of the two end times. -/
theorem c10_trim_cut_precedes_pad (b a : TrimState)
    (hcut : b.starttime < a.starttime ∨ b.endtime > a.endtime)
    (hpad : b.starttime > a.starttime ∨ b.endtime < a.endtime) :
    _extract_trim b a =
      [⟨"cut", max a.starttime b.starttime, min a.endtime b.endtime⟩,
       ⟨"pad", a.starttime, a.endtime⟩] := by
  unfold _extract_trim
  rw [if_pos hcut, if_pos hpad]
  rfl

/-- Witness for C10 at before `[0, 10]`, after `[5, 15]`: data is cut at
the start edge and padded at the end edge. -/
theorem c10_trim_cut_precedes_pad_witness :
    _extract_trim ⟨0, 10⟩ ⟨5, 15⟩ =
      [⟨"cut", max (5 : ℚ) 0, min (15 : ℚ) 10⟩, ⟨"pad", 5, 15⟩] :=
  c10_trim_cut_precedes_pad ⟨0, 10⟩ ⟨5, 15⟩ (Or.inl (by norm_num))
    (Or.inr (by norm_num))

/-- Helper for C7: the ok-outcome of the QC loop body either keeps the
interval's status or moves a `NEEDS_DOWNLOADING` interval to one of the
three download outcomes. -/
theorem check_interval_status_cases (r : Restrictions) (itv : TimeInterval)
    (fs : FileState) (out : QCOutcome)
    (h : check_interval r itv fs = Except.ok out) :
    out.status = itv.status ∨
      (itv.status = Status.needs_downloading ∧
        (out.status = Status.downloaded ∨
         out.status = Status.download_failed ∨
         out.status = Status.download_rejected)) := by
  unfold check_interval at h
  repeat' split at h
  all_goals first
    | (injection h with h; subst h; simp_all)
    | (cases h)

/-- C7: confirmed.  Across the QC pass — including runs cut short by a
raised exception — every interval either keeps its previous status, or was
in `NEEDS_DOWNLOADING` and moved to one of the terminal statuses
`DOWNLOADED`, `DOWNLOAD_FAILED`, `DOWNLOAD_REJECTED`; hence no terminal
status regresses and no download outcome appears without passing through
`NEEDS_DOWNLOADING`. -/
theorem qc_pass_status_machine (r : Restrictions)
    (l : List (TimeInterval × FileState)) :
    List.Forall₂
      (fun (p : TimeInterval × FileState) (new : TimeInterval) =>
        new.status = p.1.status ∨
          (p.1.status = Status.needs_downloading ∧
            (new.status = Status.downloaded ∨
             new.status = Status.download_failed ∨
             new.status = Status.download_rejected)))
      l (run_qc r l).intervals := by
  induction l with
  | nil => simp [run_qc]
  | cons p rest ih =>
    obtain ⟨itv, fs⟩ := p
    simp only [run_qc]
    cases hc : check_interval r itv fs with
    | error e =>
      simp only []
      constructor
      · exact Or.inl rfl
      · rw [List.forall₂_map_right_iff, List.forall₂_same]
        intro x hx
        exact Or.inl rfl
    | ok out =>
      simp only []
      constructor
      · exact check_interval_status_cases r itv fs out hc
      · exact ih

/-- Helper for C5: estimate of a chunk extended by one entry. -/
theorem chunk_mb_append_single (l : List (ℚ × TimeInterval))
    (e : ℚ × TimeInterval) :
    chunk_mb (l ++ [e]) = chunk_mb l + interval_mb e.1 e.2 := by
  simp [chunk_mb]

/-- Helper for C5: split a non-empty chunk's estimate at its last entry. -/
theorem chunk_mb_eq_dropLast_add (l : List (ℚ × TimeInterval)) (h : l ≠ []) :
    chunk_mb l =
      chunk_mb l.dropLast +
        interval_mb (l.getLast h).1 (l.getLast h).2 := by
  conv_lhs => rw [← List.dropLast_append_getLast h]
  rw [chunk_mb_append_single]

/-- Helper for C5: one iteration of the chunking loop preserves the
invariant. -/
theorem chunk_step_inv (thr : ℚ) (hpos : 0 < thr) (s : ChunkState)
    (e : ℚ × TimeInterval) (he : 0 ≤ interval_mb e.1 e.2)
    (hs : ChunkInv thr s) : ChunkInv thr (chunk_step thr s e) := by
  obtain ⟨h1, h2, h3, h4⟩ := hs
  simp only [chunk_step]
  split
  · exact ⟨h1, h2, h3, h4⟩
  · split
    · refine ⟨?_, by simp [chunk_mb], by simpa [chunk_mb] using hpos, by simp⟩
      intro c hc
      rcases List.mem_append.mp hc with hc | hc
      · exact h1 c hc
      · rw [List.mem_singleton.mp hc]
        refine ⟨by simp, ?_⟩
        rw [List.dropLast_concat]
        exact h3
    · refine ⟨h1, ?_, ?_, ?_⟩
      · rw [chunk_mb_append_single, h2]
      · rename_i hlt
        rw [chunk_mb_append_single, ← h2]
        exact lt_of_not_ge hlt
      · intro x hx
        rcases List.mem_append.mp hx with hx | hx
        · exact h4 x hx
        · rw [List.mem_singleton.mp hx]
          exact he

/-- Helper for C5: the chunking fold preserves the invariant. -/
theorem chunk_fold_inv (thr : ℚ) (hpos : 0 < thr) :
    ∀ (l : List (ℚ × TimeInterval)) (s : ChunkState),
      (∀ e ∈ l, 0 ≤ interval_mb e.1 e.2) → ChunkInv thr s →
      ChunkInv thr (l.foldl (chunk_step thr) s)
  | [], s, _, hs => hs
  | e :: rest, s, hl, hs => by
    rw [List.foldl_cons]
    exact chunk_fold_inv thr hpos rest _
      (fun x hx => hl x (List.mem_cons_of_mem e hx))
      (chunk_step_inv thr hpos s e (hl e (List.mem_cons_self e rest)) hs)

/-- Helper for C5: the chunking fold loses no `NEEDS_DOWNLOADING` interval
and picks up nothing else. -/
theorem chunk_fold_flatten (thr : ℚ) :
    ∀ (l : List (ℚ × TimeInterval)) (s : ChunkState),
      (l.foldl (chunk_step thr) s).chunks.flatten ++
        (l.foldl (chunk_step thr) s).chunks_curr =
      s.chunks.flatten ++ s.chunks_curr ++
        l.filter (fun e => decide (e.2.status = Status.needs_downloading))
  | [], s => by simp
  | e :: rest, s => by
    rw [List.foldl_cons, chunk_fold_flatten thr rest]
    simp only [chunk_step]
    split
    · rename_i hne
      simp only [List.filter_cons]
      rw [decide_eq_false (by simpa using hne)]
      simp
    · rename_i hne
      have hp : decide (e.2.status = Status.needs_downloading) = true := by
        simp at hne
        simp [hne]
      split
      · simp [List.filter_cons, hp]
      · simp [List.filter_cons, hp]

/-- C5 (amended): confirmed in the amended form.  For a positive threshold
and non-negative size estimates, every produced chunk is non-empty and its
estimate *excluding its final interval* is strictly below the threshold
(so a chunk exceeds the threshold only by its final interval's
contribution), and the produced chunks partition exactly the
`NEEDS_DOWNLOADING` intervals in walk order — none is dropped, including
one whose own estimate exceeds the threshold. -/
theorem c5_chunk_overshoot_bounded (thr : ℚ)
    (entries : List (ℚ × TimeInterval)) (hpos : 0 < thr)
    (hnn : ∀ e ∈ entries, 0 ≤ interval_mb e.1 e.2) :
    (∀ c ∈ make_chunks thr entries, c ≠ [] ∧ chunk_mb c.dropLast < thr) ∧
    (make_chunks thr entries).flatten =
      entries.filter
        (fun e => decide (e.2.status = Status.needs_downloading)) := by
  have hinv : ChunkInv thr (entries.foldl (chunk_step thr) ⟨[], [], 0⟩) :=
    chunk_fold_inv thr hpos entries ⟨[], [], 0⟩ hnn
      ⟨by simp, by simp [chunk_mb], by simpa [chunk_mb] using hpos, by simp⟩
  have hflat := chunk_fold_flatten thr entries ⟨[], [], 0⟩
  obtain ⟨h1, h2, h3, h4⟩ := hinv
  simp only [make_chunks]
  split
  · rename_i hemp
    refine ⟨h1, ?_⟩
    rw [List.isEmpty_iff] at hemp
    rw [hemp] at hflat
    simpa using hflat
  · rename_i hemp
    rw [List.isEmpty_iff] at hemp
    constructor
    · intro c hc
      rcases List.mem_append.mp hc with hc | hc
      · exact h1 c hc
      · rw [List.mem_singleton.mp hc]
        refine ⟨hemp, ?_⟩
        have hlast := chunk_mb_eq_dropLast_add _ hemp
        have hnn_last : 0 ≤ interval_mb
            ((List.foldl (chunk_step thr) ⟨[], [], 0⟩
              entries).chunks_curr.getLast hemp).1
            ((List.foldl (chunk_step thr) ⟨[], [], 0⟩
              entries).chunks_curr.getLast hemp).2 :=
          h4 _ (List.getLast_mem hemp)
        linarith
    · rw [List.flatten_append]
      simpa using hflat

/-- Counterexample to C5 as stated: with threshold 25 MB, two intervals
estimating 20 MB each end up in one produced chunk of estimated size 40 MB
— above the threshold yet not a singleton. -/
theorem c5_threshold_counterexample :
    ¬ ∀ c ∈ make_chunks 25 twenty_mb_entries,
        chunk_mb c ≤ 25 ∨ (c.length = 1 ∧ 25 < chunk_mb c) := by
  intro hall
  have hmk : make_chunks 25 twenty_mb_entries = [twenty_mb_entries] := by
    norm_num [make_chunks, chunk_step, twenty_mb_entries, interval_mb]
  have hmem : twenty_mb_entries ∈ make_chunks 25 twenty_mb_entries := by
    rw [hmk]; exact List.mem_singleton_self _
  have h40 : chunk_mb twenty_mb_entries = 40 := by
    norm_num [chunk_mb, twenty_mb_entries, interval_mb]
  rcases hall _ hmem with h | ⟨hlen, _⟩
  · rw [h40] at h; norm_num at h
  · norm_num [twenty_mb_entries] at hlen

/-- Witness for the amended C5 at threshold 25 and the 20 MB entries. -/
theorem c5_chunk_overshoot_bounded_witness :
    (∀ c ∈ make_chunks 25 twenty_mb_entries,
      c ≠ [] ∧ chunk_mb c.dropLast < 25) ∧
    (make_chunks 25 twenty_mb_entries).flatten =
      twenty_mb_entries.filter
        (fun e => decide (e.2.status = Status.needs_downloading)) :=
  c5_chunk_overshoot_bounded 25 twenty_mb_entries (by norm_num)
    (by
      intro e he
      rcases List.mem_cons.mp he with h | he2
      · rw [h]; norm_num [interval_mb]
      · rcases List.mem_cons.mp he2 with h | h
        · rw [h]; norm_num [interval_mb]
        · simp at h)

/-- C6: confirmed.  When every provider signals no-data or contributes no
route, `_combine_data` raises `FDSNNoDataException` rather than returning
an empty success; and a no-data provider is skipped without error, the
remaining providers being processed exactly as if it were absent. -/
theorem c6_combiner_no_data {V K : Type} [DecidableEq V] [DecidableEq K]
    (providers : List (ProviderResult V K))
    (h : ∀ p ∈ providers, contributes_nothing p) :
    _combine_data providers = CombineResult.noDataException ∧
    ∀ rest : List (ProviderResult V K),
      _combine_data (ProviderResult.noData :: rest) = _combine_data rest := by
  have hfold : ∀ (l : List (ProviderResult V K)),
      (∀ p ∈ l, contributes_nothing p) →
      ∀ s : CombineState V K, l.foldl process_offer s = s := by
    intro l
    induction l with
    | nil => intro _ s; rfl
    | cons p rest ih =>
      intro hall s
      rw [List.foldl_cons]
      have hp := hall p (List.mem_cons_self p rest)
      have hstep : process_offer s p = s := by
        rcases hp with h | h | ⟨kw, h⟩ <;> subst h <;> rfl
      rw [hstep]
      exact ih (fun x hx => hall x (List.mem_cons_of_mem p hx)) s
  constructor
  · simp only [_combine_data]
    rw [hfold providers h]
    rfl
  · intro rest
    rfl

/-- Witness for C6 on three concrete no-route providers. -/
theorem c6_combiner_no_data_witness :
    _combine_data no_route_providers = CombineResult.noDataException :=
  (c6_combiner_no_data no_route_providers
    (by
      intro p hp
      rcases List.mem_cons.mp hp with h | hp2
      · exact Or.inl h
      · rcases List.mem_cons.mp hp2 with h | hp3
        · exact Or.inr (Or.inr ⟨0, h⟩)
        · rcases List.mem_cons.mp hp3 with h | hp4
          · exact Or.inr (Or.inl h)
          · simp at hp4)).1

/-- Helper for C9: closure of a fold whose steps preserve a per-element
property of the accumulated list. -/
theorem foldl_forall_mem {α σ : Type _} (f : List σ → α → List σ)
    (Q : σ → Prop) :
    ∀ (l : List α) (b : List σ), (∀ q ∈ b, Q q) →
      (∀ acc a, a ∈ l → (∀ q ∈ acc, Q q) → ∀ q ∈ f acc a, Q q) →
      ∀ q ∈ l.foldl f b, Q q
  | [], b, hb, _ => hb
  | a :: rest, b, hb, hf => by
    rw [List.foldl_cons]
    exact foldl_forall_mem f Q rest (f b a)
      (hf b a (List.mem_cons_self a rest) hb)
      (fun acc x hx hacc => hf acc x (List.mem_cons_of_mem a hx) hacc)

/-- Helper for C9: a dict assignment only rewrites with the assigned pair
or keeps existing entries. -/
theorem dictInsert_mem {κ α : Type} [DecidableEq κ] (l : List (κ × α))
    (k : κ) (v : α) (q : κ × α) (h : q ∈ dictInsert l k v) :
    q ∈ l ∨ q = (k, v) := by
  unfold dictInsert at h
  split at h
  · rcases List.mem_map.mp h with ⟨p, hp, hq⟩
    by_cases hk : p.1 = k
    · right
      rw [← hq, if_pos hk]
    · left
      rw [← hq, if_neg hk]
      exact hp
  · rcases List.mem_append.mp h with h | h
    · exact Or.inl h
    · exact Or.inr (List.mem_singleton.mp h)

/-- Helper for C9: the priority filter only selects from its input. -/
theorem filter_channel_priority_subset (key : Channel → String)
    (pr : List String) (ch : List Channel) :
    ∀ x ∈ filter_channel_priority key pr ch, x ∈ ch := by
  intro x hx
  unfold filter_channel_priority at hx
  split at hx
  · simp at hx
  · exact List.mem_of_mem_filter hx

/-- Helper for C9: the grouped channel/location priority pipeline only
selects from its input. -/
theorem priority_filtered_subset (r : AvailRestrictions)
    (ch : List Channel) : ∀ x ∈ priority_filtered r ch, x ∈ ch := by
  intro x hx
  simp only [priority_filtered] at hx
  have h1 := filter_channel_priority_subset _ _ _ x hx
  rcases List.mem_flatMap.mp h1 with ⟨loc, hloc, hx2⟩
  have h2 := filter_channel_priority_subset _ _ _ x hx2
  exact List.mem_of_mem_filter h2

/-- Helper for C9: a passing channel's metadata epoch covers the requested
window. -/
theorem channel_passes_covers (r : AvailRestrictions) (ia : Bool)
    (c : InvChannel) (h : channel_passes r ia c = true) :
    c.start_date ≤ r.starttime ∧ r.endtime ≤ c.end_date := by
  simp only [channel_passes, Bool.and_eq_true, Bool.not_eq_true',
    Bool.or_eq_false_iff, decide_eq_false_iff_not, not_lt] at h
  exact ⟨h.1.1, h.1.2⟩

/-- C9: confirmed.  Every station stored by `get_availability` has at
least one channel, and every stored channel descends from an inventory
channel whose metadata epoch starts at or before the requested start and
ends at or after the requested end; channels failing that check never
reach the stored map. -/
theorem c9_availability_epoch_coverage (r : AvailRestrictions)
    (include_avail needs_filtering : Bool) (is_in_domain : ℚ → ℚ → Bool)
    (intervals : List TimeInterval) (inv : List InvNetwork) :
    ∀ q ∈ get_availability r include_avail needs_filtering is_in_domain
        intervals inv,
      q.2.channels ≠ [] ∧
        ∀ cha ∈ q.2.channels, channel_covered r inv cha := by
  unfold get_availability
  refine foldl_forall_mem _ _ inv [] (by intro q hq; simp at hq) ?_
  intro acc network hnet hacc
  refine foldl_forall_mem _ _ network.stations acc hacc ?_
  intro acc2 station hsta hacc2
  dsimp only
  split
  · exact hacc2
  · split
    · exact hacc2
    · rename_i hne
      intro q hq
      rcases dictInsert_mem _ _ _ q hq with hq | hq
      · exact hacc2 q hq
      · rw [hq]
        constructor
        · intro hnil
          rw [List.isEmpty_iff] at hne
          exact hne hnil
        · intro cha hcha
          have h1 := priority_filtered_subset _ _ cha hcha
          rcases List.mem_map.mp h1 with ⟨c, hc, hch⟩
          have hcmem := List.mem_of_mem_filter hc
          have hpass := List.of_mem_filter hc
          have hcov := channel_passes_covers r include_avail c hpass
          exact ⟨network, hnet, station, hsta, c, hcmem,
            by rw [← hch], by rw [← hch], hcov.1, hcov.2⟩

/-- Witness for C9 on a one-channel inventory whose epoch `[-5, 20]` covers
the requested window `[0, 10]`. -/
theorem c9_availability_epoch_coverage_witness :
    (("N", "S"), witness_stored_station) ∈
      get_availability witness_avail_restrictions false false
        (fun _ _ => true) witness_intervals witness_inventory ∧
    witness_stored_station.channels ≠ [] ∧
    ∀ cha ∈ witness_stored_station.channels,
      channel_covered witness_avail_restrictions witness_inventory cha := by
  have hmem : (("N", "S"), witness_stored_station) ∈
      get_availability witness_avail_restrictions false false
        (fun _ _ => true) witness_intervals witness_inventory := by
    have hev : get_availability witness_avail_restrictions false false
        (fun _ _ => true) witness_intervals witness_inventory =
        [(("N", "S"), witness_stored_station)] := by
      norm_num [get_availability, witness_avail_restrictions,
        witness_inventory, witness_stored_station, witness_intervals,
        channel_passes, priority_filtered, filter_channel_priority,
        dictInsert]
    rw [hev]
    exact List.mem_singleton_self _
  have h := c9_availability_epoch_coverage witness_avail_restrictions false
    false (fun _ _ => true) witness_intervals witness_inventory _ hmem
  exact ⟨hmem, h.1, h.2⟩

/-- Helper for C8: the `os.makedirs` cascade only adds paths. -/
theorem makedirs_create_mono : ∀ (fuel : ℕ) (fs : FS) (name p : String),
    p ∈ fs.paths → p ∈ (makedirs_create fuel fs name).paths
  | 0, _, _, _, hp => hp
  | fuel + 1, fs, name, p, hp => by
    simp only [makedirs_create]
    split
    · exact List.mem_append_left _ (makedirs_create_mono fuel fs _ p hp)
    · exact List.mem_append_left _ hp

/-- Helper for C8: everything the cascade adds lies on the parent chain
of its target. -/
theorem makedirs_create_bound : ∀ (fuel : ℕ) (fs : FS) (name : String),
    name ≠ "" → ∀ p ∈ (makedirs_create fuel fs name).paths,
      p ∈ fs.paths ∨ p ∈ chainAux fuel name
  | 0, _, _, _, _, hp => Or.inl hp
  | fuel + 1, fs, name, hne, p, hp => by
    simp only [makedirs_create] at hp
    have hchain : chainAux (fuel + 1) name =
        name :: chainAux fuel (dirname name) := by
      simp only [chainAux]
      rw [if_neg hne]
    rw [hchain]
    rcases List.mem_append.mp hp with hp | hp
    · by_cases hcond : dirname name ≠ "" ∧ dirname name ∉ fs.paths
      · rw [if_pos hcond] at hp
        rcases makedirs_create_bound fuel fs (dirname name) hcond.1 p hp
          with h | h
        · exact Or.inl h
        · exact Or.inr (List.mem_cons_of_mem _ h)
      · rw [if_neg hcond] at hp
        exact Or.inl hp
    · rw [List.mem_singleton.mp hp]
      exact Or.inr (List.mem_cons_self _ _)

/-- Helper for C8: the cascade creates its target. -/
theorem makedirs_create_self (fuel : ℕ) (fs : FS) (name : String) :
    name ∈ (makedirs_create (fuel + 1) fs name).paths := by
  simp only [makedirs_create]
  exact List.mem_append_right _ (List.mem_singleton_self _)

/-- Helper for C8: on a non-empty, missing target `os.makedirs` succeeds
and runs the creation cascade. -/
theorem makedirs_ok (fs : FS) (name : String) (h0 : name ≠ "")
    (h1 : name ∉ fs.paths) :
    makedirs fs name =
      Except.ok (makedirs_create (name.length + 1) fs name) := by
  unfold makedirs
  rw [if_neg h0, if_neg h1]

/-- Helper for C8: intervals stable for `fsA` are a fixpoint of the
prepare loop, which leaves the filesystem untouched. -/
theorem prepare_intervals_stable
    (rv : ℚ → ℚ → Option String) (fsA : FS) :
    ∀ l1 : List TimeInterval,
      (∀ itv ∈ l1, interval_stable rv fsA itv) →
      prepare_intervals rv fsA l1 = Except.ok (l1, fsA) := by
  intro l1
  induction l1 with
  | nil => intro _; rfl
  | cons itv rest ih =>
    intro hall
    have hitv := hall itv (List.mem_cons_self itv rest)
    have hhead : prepare_interval rv fsA itv = Except.ok (itv, fsA) := by
      obtain ⟨s, e, fn, st⟩ := itv
      obtain ⟨h1, h2⟩ := hitv
      unfold prepare_interval
      cases hrv : rv s e with
      | none =>
        obtain ⟨hfn, hst⟩ := h1 hrv
        simp_all
      | some f =>
        obtain ⟨hfn, hbr⟩ := h2 f hrv
        rcases hbr with ⟨hmem, hst⟩ | ⟨hnot, hdir, hst⟩
        · simp_all
        · simp_all
    unfold prepare_intervals
    rw [hhead]
    dsimp only
    rw [ih (fun x hx => hall x (List.mem_cons_of_mem itv hx))]

/-- Helper for C8: when every resolved filename has a non-empty parent,
the prepare loop over one channel's intervals never raises, only grows
the filesystem by directories on the parent chains of resolved filenames,
and leaves every produced interval stable for any filesystem extending
the final one in which the freshly-needed files are still absent. -/
theorem prepare_intervals_spec (rv : ℚ → ℚ → Option String) :
    ∀ (l : List TimeInterval) (fs : FS),
      (∀ itv ∈ l, ∀ f, rv itv.start itv.end_ = Option.some f →
        dirname f ≠ "") →
      ∃ l1 fs1, prepare_intervals rv fs l = Except.ok (l1, fs1) ∧
        (∀ p ∈ fs.paths, p ∈ fs1.paths) ∧
        (∀ p ∈ fs1.paths, p ∈ fs.paths ∨
          ∃ itv ∈ l, ∃ f, rv itv.start itv.end_ = Option.some f ∧
            p ∈ dirname_chain (dirname f)) ∧
        (∀ itv1 ∈ l1, ∀ fsA : FS,
          (∀ p ∈ fs1.paths, p ∈ fsA.paths) →
          (∀ itv ∈ l, ∀ f, rv itv.start itv.end_ = Option.some f →
            f ∉ fs.paths → f ∉ fsA.paths) →
          interval_stable rv fsA itv1) := by
  intro l
  induction l with
  | nil =>
    intro fs _
    exact ⟨[], fs, rfl, fun p hp => hp, fun p hp => Or.inl hp,
      by intro itv1 h; simp at h⟩
  | cons itv rest ih =>
    intro fs hroot
    have hroot_rest : ∀ itv2 ∈ rest, ∀ f,
        rv itv2.start itv2.end_ = Option.some f → dirname f ≠ "" :=
      fun itv2 hm f hf => hroot itv2 (List.mem_cons_of_mem _ hm) f hf
    obtain ⟨s, e, fn, st⟩ := itv
    cases hrv : rv s e with
    | none =>
      obtain ⟨l1', fs1', hrun, hmono, hadd, hstab⟩ := ih fs hroot_rest
      refine ⟨⟨s, e, Option.none, Status.ignore⟩ :: l1', fs1', ?_, hmono,
        ?_, ?_⟩
      · simp [prepare_intervals, prepare_interval, hrv, hrun]
      · intro p hp
        rcases hadd p hp with h | ⟨itv2, hm, f, hf, hp2⟩
        · exact Or.inl h
        · exact Or.inr ⟨itv2, List.mem_cons_of_mem _ hm, f, hf, hp2⟩
      · intro itv1 h1 fsA hsub habs
        rcases List.mem_cons.mp h1 with h1 | h1
        · subst h1
          constructor
          · intro _
            exact ⟨rfl, rfl⟩
          · intro f hf
            dsimp only at hf
            rw [hrv] at hf
            cases hf
        · exact hstab itv1 h1 fsA hsub
            (fun itv2 hm f hf hnot => habs itv2 (List.mem_cons_of_mem _ hm)
              f hf hnot)
    | some f =>
      by_cases hmem : f ∈ fs.paths
      · obtain ⟨l1', fs1', hrun, hmono, hadd, hstab⟩ := ih fs hroot_rest
        refine ⟨⟨s, e, Option.some f, Status.exists_⟩ :: l1', fs1', ?_,
          hmono, ?_, ?_⟩
        · simp [prepare_intervals, prepare_interval, hrv, hmem, hrun]
        · intro p hp
          rcases hadd p hp with h | ⟨itv2, hm, f2, hf2, hp2⟩
          · exact Or.inl h
          · exact Or.inr ⟨itv2, List.mem_cons_of_mem _ hm, f2, hf2, hp2⟩
        · intro itv1 h1 fsA hsub habs
          rcases List.mem_cons.mp h1 with h1 | h1
          · subst h1
            constructor
            · intro h0
              dsimp only at h0
              rw [hrv] at h0
              cases h0
            · intro f2 hf2
              dsimp only at hf2
              rw [hrv] at hf2
              injection hf2 with hf2
              subst hf2
              exact ⟨rfl, Or.inl ⟨hsub f (hmono f hmem), rfl⟩⟩
          · exact hstab itv1 h1 fsA hsub
              (fun itv2 hm f2 hf2 hnot =>
                habs itv2 (List.mem_cons_of_mem _ hm) f2 hf2 hnot)
      · by_cases hdir : dirname f ∈ fs.paths
        · obtain ⟨l1', fs1', hrun, hmono, hadd, hstab⟩ := ih fs hroot_rest
          refine ⟨⟨s, e, Option.some f, Status.needs_downloading⟩ :: l1',
            fs1', ?_, hmono, ?_, ?_⟩
          · simp [prepare_intervals, prepare_interval, hrv, hmem, hdir,
              hrun]
          · intro p hp
            rcases hadd p hp with h | ⟨itv2, hm, f2, hf2, hp2⟩
            · exact Or.inl h
            · exact Or.inr ⟨itv2, List.mem_cons_of_mem _ hm, f2, hf2, hp2⟩
          · intro itv1 h1 fsA hsub habs
            rcases List.mem_cons.mp h1 with h1 | h1
            · subst h1
              constructor
              · intro h0
                dsimp only at h0
                rw [hrv] at h0
                cases h0
              · intro f2 hf2
                dsimp only at hf2
                rw [hrv] at hf2
                injection hf2 with hf2
                subst hf2
                refine ⟨rfl, Or.inr ⟨?_, hsub _ (hmono _ hdir), rfl⟩⟩
                exact habs ⟨s, e, fn, st⟩ (List.mem_cons_self _ _) f hrv hmem
            · exact hstab itv1 h1 fsA hsub
                (fun itv2 hm f2 hf2 hnot =>
                  habs itv2 (List.mem_cons_of_mem _ hm) f2 hf2 hnot)
        · have hr : dirname f ≠ "" :=
            hroot ⟨s, e, fn, st⟩ (List.mem_cons_self _ _) f hrv
          obtain ⟨l1', fs1', hrun, hmono, hadd, hstab⟩ :=
            ih (makedirs_create ((dirname f).length + 1) fs (dirname f))
              hroot_rest
          refine ⟨⟨s, e, Option.some f, Status.needs_downloading⟩ :: l1',
            fs1', ?_, ?_, ?_, ?_⟩
          · simp [prepare_intervals, prepare_interval, hrv, hmem, hdir,
              makedirs_ok fs (dirname f) hr hdir, hrun]
          · intro p hp
            exact hmono p (makedirs_create_mono _ fs _ p hp)
          · intro p hp
            rcases hadd p hp with h | ⟨itv2, hm, f2, hf2, hp2⟩
            · rcases makedirs_create_bound _ fs (dirname f) hr p h
                with h | h
              · exact Or.inl h
              · exact Or.inr ⟨⟨s, e, fn, st⟩, List.mem_cons_self _ _, f,
                  hrv, h⟩
            · exact Or.inr ⟨itv2, List.mem_cons_of_mem _ hm, f2, hf2, hp2⟩
          · intro itv1 h1 fsA hsub habs
            rcases List.mem_cons.mp h1 with h1 | h1
            · subst h1
              constructor
              · intro h0
                dsimp only at h0
                rw [hrv] at h0
                cases h0
              · intro f2 hf2
                dsimp only at hf2
                rw [hrv] at hf2
                injection hf2 with hf2
                subst hf2
                refine ⟨rfl, Or.inr ⟨?_, ?_, rfl⟩⟩
                · exact habs ⟨s, e, fn, st⟩ (List.mem_cons_self _ _) f hrv
                    hmem
                · exact hsub _ (hmono _
                    (makedirs_create_self (dirname f).length fs (dirname f)))
            · refine hstab itv1 h1 fsA hsub ?_
              intro itv2 hm f2 hf2 hnot
              refine habs itv2 (List.mem_cons_of_mem _ hm) f2 hf2 ?_
              intro hin
              exact hnot (makedirs_create_mono _ fs _ f2 hin)

/-- Helper for C8: channels whose intervals are a fixpoint for `fsA` make
the whole channel loop a fixpoint. -/
theorem prepare_channels_stable
    (storage : String → String → ℚ → ℚ → Option String) (fsA : FS) :
    ∀ chans1 : List Channel,
      (∀ cha1 ∈ chans1, prepare_intervals (channel_resolver storage cha1)
        fsA cha1.intervals = Except.ok (cha1.intervals, fsA)) →
      prepare_channels storage fsA chans1 = Except.ok (chans1, fsA) := by
  intro chans1
  induction chans1 with
  | nil => intro _; rfl
  | cons cha rest ih =>
    intro hall
    unfold prepare_channels
    rw [hall cha (List.mem_cons_self _ _)]
    dsimp only
    rw [ih (fun x hx => hall x (List.mem_cons_of_mem _ hx))]

/-- Helper for C8: `prepare_intervals_spec` lifted over a station's
channel list. -/
theorem prepare_channels_spec
    (storage : String → String → ℚ → ℚ → Option String) :
    ∀ (chans : List Channel) (fs : FS),
      (∀ cha ∈ chans, ∀ itv ∈ cha.intervals, ∀ f,
        channel_resolver storage cha itv.start itv.end_ = Option.some f →
        dirname f ≠ "") →
      ∃ chans1 fs1,
        prepare_channels storage fs chans = Except.ok (chans1, fs1) ∧
        (∀ p ∈ fs.paths, p ∈ fs1.paths) ∧
        (∀ p ∈ fs1.paths, p ∈ fs.paths ∨
          ∃ cha ∈ chans, ∃ itv ∈ cha.intervals, ∃ f,
            channel_resolver storage cha itv.start itv.end_ =
              Option.some f ∧ p ∈ dirname_chain (dirname f)) ∧
        (∀ cha1 ∈ chans1, ∀ fsA : FS,
          (∀ p ∈ fs1.paths, p ∈ fsA.paths) →
          (∀ cha ∈ chans, ∀ itv ∈ cha.intervals, ∀ f,
            channel_resolver storage cha itv.start itv.end_ =
              Option.some f → f ∉ fs.paths → f ∉ fsA.paths) →
          prepare_intervals (channel_resolver storage cha1) fsA
            cha1.intervals = Except.ok (cha1.intervals, fsA)) := by
  intro chans
  induction chans with
  | nil =>
    intro fs _
    exact ⟨[], fs, rfl, fun p hp => hp, fun p hp => Or.inl hp,
      by intro cha1 h; simp at h⟩
  | cons cha rest ih =>
    intro fs hroot
    obtain ⟨itvs1, fsmid, hrun1, hmono1, hadd1, hstab1⟩ :=
      prepare_intervals_spec (channel_resolver storage cha)
        cha.intervals fs
        (fun itv hm f hf => hroot cha (List.mem_cons_self _ _) itv hm f hf)
    obtain ⟨rest1, fs1, hrun2, hmono2, hadd2, hstab2⟩ := ih fsmid
      (fun cha2 hm itv hm2 f hf =>
        hroot cha2 (List.mem_cons_of_mem _ hm) itv hm2 f hf)
    refine ⟨{ cha with intervals := itvs1 } :: rest1, fs1, ?_, ?_, ?_, ?_⟩
    · unfold prepare_channels
      rw [hrun1]
      dsimp only
      rw [hrun2]
    · exact fun p hp => hmono2 p (hmono1 p hp)
    · intro p hp
      rcases hadd2 p hp with h | ⟨cha2, hm, itv2, hm2, f2, hf2, hp2⟩
      · rcases hadd1 p h with h | ⟨itv2, hm2, f2, hf2, hp2⟩
        · exact Or.inl h
        · exact Or.inr ⟨cha, List.mem_cons_self _ _, itv2, hm2, f2, hf2,
            hp2⟩
      · exact Or.inr ⟨cha2, List.mem_cons_of_mem _ hm, itv2, hm2, f2, hf2,
          hp2⟩
    · intro cha1 h1 fsA hsub habs
      rcases List.mem_cons.mp h1 with h1 | h1
      · subst h1
        exact prepare_intervals_stable (channel_resolver storage cha) fsA
          itvs1
          (fun itv1 hitv1 => hstab1 itv1 hitv1 fsA
            (fun p hp => hsub p (hmono2 p hp))
            (fun itv2 hm f2 hf2 hnot =>
              habs cha (List.mem_cons_self _ _) itv2 hm f2 hf2 hnot))
      · refine hstab2 cha1 h1 fsA hsub ?_
        intro cha2 hm itv2 hm2 f2 hf2 hnot
        refine habs cha2 (List.mem_cons_of_mem _ hm) itv2 hm2 f2 hf2 ?_
        intro hin
        exact hnot (hmono1 _ hin)

/-- C8 (amended): with a deterministic storage resolver, every resolved
filename having a non-empty parent directory and no resolved filename
lying on the parent chain of another resolved filename (directories the
first run's `os.makedirs` may create), `prepare_mseed_download` never
fails, and re-running it on its own output reproduces exactly the same
filenames, statuses and filesystem. -/
theorem c8_prepare_idempotent
    (storage : String → String → ℚ → ℚ → Option String) (fs0 : FS)
    (sta : Station)
    (hroot : ∀ f ∈ resolvedFilenames storage sta, dirname f ≠ "")
    (hd : ∀ f ∈ resolvedFilenames storage sta,
      ∀ g ∈ resolvedFilenames storage sta, f ∉ dirname_chain (dirname g)) :
    ∃ sta1 fs1,
      prepare_mseed_download storage fs0 sta = Except.ok (sta1, fs1) ∧
      prepare_mseed_download storage fs1 sta1 = Except.ok (sta1, fs1) := by
  obtain ⟨chans1, fs1, hrun, hmono, hadd, hstab⟩ :=
    prepare_channels_spec storage sta.channels fs0
      (fun cha hm itv hm2 f hf => hroot f
        (by
          unfold resolvedFilenames
          exact List.mem_flatMap.mpr ⟨cha, hm,
            List.mem_filterMap.mpr ⟨itv, hm2, hf⟩⟩))
  refine ⟨{ sta with channels := chans1 }, fs1, ?_, ?_⟩
  · unfold prepare_mseed_download
    rw [hrun]
  · unfold prepare_mseed_download
    dsimp only
    have hfix : prepare_channels storage fs1 chans1 =
        Except.ok (chans1, fs1) := by
      apply prepare_channels_stable
      intro cha1 h1
      refine hstab cha1 h1 fs1 (fun p hp => hp) ?_
      intro cha hm itv hm2 f hf hnot hin
      rcases hadd f hin with h | ⟨cha2, hm3, itv2, hm4, g, hg, hfg⟩
      · exact hnot h
      · have hfres : f ∈ resolvedFilenames storage sta := by
          unfold resolvedFilenames
          exact List.mem_flatMap.mpr ⟨cha, hm,
            List.mem_filterMap.mpr ⟨itv, hm2, hf⟩⟩
        have hgres : g ∈ resolvedFilenames storage sta := by
          unfold resolvedFilenames
          exact List.mem_flatMap.mpr ⟨cha2, hm3,
            List.mem_filterMap.mpr ⟨itv2, hm4, hg⟩⟩
        exact hd f hfres g hgres hfg
    rw [hfix]

/-- Counterexample to C8 as stated: with the deterministic resolver
`c8_storage` (`B1` interval to `r/x`, `B2` interval to `r/x/y/z.mseed`)
and no external filesystem change, the first run marks both intervals
`NEEDS_DOWNLOADING` while its `os.makedirs("r/x/y")` creates the
intermediate directory `r/x`; the second run therefore finds `r/x` on
disk and flips the `B1` interval to `EXISTS` — the two runs assign
different statuses.  Also, a resolver returning a bare relative filename
makes the run fail on its missing (empty) parent directory with
`FileNotFoundError` from `os.makedirs("")`. -/
theorem c8_idempotence_counterexample :
    prepare_mseed_download c8_storage ⟨[]⟩ c8_station =
      Except.ok (c8_station_run1, c8_fs_run1) ∧
    prepare_mseed_download c8_storage c8_fs_run1 c8_station_run1 =
      Except.ok (c8_station_run2, c8_fs_run1) ∧
    c8_station_run1 ≠ c8_station_run2 ∧
    prepare_mseed_download c8_bare_storage ⟨[]⟩ c8_bare_station =
      Except.error PyError.fileNotFoundError := by
  refine ⟨rfl, rfl, ?_, rfl⟩
  intro h
  simp [c8_station_run1, c8_station_run2] at h

/-- Witness for the amended C8: a fresh station, an empty filesystem, and
a resolver sending every interval to `data/file.mseed`. -/
theorem c8_prepare_idempotent_witness :
    ∃ sta1 fs1,
      prepare_mseed_download witness_storage ⟨[]⟩ witness_station =
        Except.ok (sta1, fs1) ∧
      prepare_mseed_download witness_storage fs1 sta1 =
        Except.ok (sta1, fs1) :=
  c8_prepare_idempotent witness_storage ⟨[]⟩ witness_station
    (by
      intro f hf
      have hf2 : f = "data/file.mseed" := by
        simpa [resolvedFilenames, witness_storage, witness_station,
          channel_resolver] using hf
      subst hf2
      decide)
    (by
      intro f hf g hg
      have hf2 : f = "data/file.mseed" := by
        simpa [resolvedFilenames, witness_storage, witness_station,
          channel_resolver] using hf
      have hg2 : g = "data/file.mseed" := by
        simpa [resolvedFilenames, witness_storage, witness_station,
          channel_resolver] using hg
      subst hf2
      subst hg2
      decide)

end Obspy
